import Mathlib

/-!
Shallow embedding of src/script.py (a Telegram daily-poll bot) and proofs
about its reconciliation engine: the update cursor, the vote aggregator,
the poll registry with expiry, and the week-cycle controller.

Modelling conventions:
  * Python dicts keep insertion order, so they are association lists; the
    set processed_polls is a list of ids queried only by membership.
  * Calendar dates are day numbers d with day 0 = 0001-01-01 (a Monday in
    the proleptic Gregorian calendar Python uses), so that d % 7 is exactly
    Python's date.weekday() (0 = Monday, ..., 6 = Sunday).  timedelta
    subtraction of days is integer subtraction; (now - poll_midnight).days
    equals the difference of the day numbers for every time of day, since
    the fractional part is in [0, 1) and timedelta.days floors.
  * Python ints are Int; Telegram update ids and option indexes, which are
    non-negative, are Nat.
-/

set_option autoImplicit false

namespace PollBot

/-- A Python string field of a JSON object: `absent` when the key is missing
(`dict.get` yields None), otherwise the string value.  `val ""` is present
but falsy. -/
inductive StrField where
  | absent
  | val (s : String)
deriving DecidableEq

/-- The Telegram user object of a poll_answer, as read by process_updates
(src/script.py lines 145-147). -/
structure TgUser where
  id : Int
  username : StrField
  first_name : StrField
deriving DecidableEq

/-- A poll_answer payload: poll id, the answering user, and the selected
option indexes (0-indexed; empty means the vote was retracted). -/
structure PollAnswer where
  poll_id : String
  user : TgUser
  option_ids : List Nat
deriving DecidableEq

/-- One element of the getUpdates batch: its update_id (the sequence number;
`update.get("update_id", 0)` reads 0 when absent) and the optional
poll_answer payload. -/
structure Update where
  update_id : Nat
  poll_answer : Option PollAnswer
deriving DecidableEq

/-- Respondent-key derivation of src/script.py line 147:
`username = user.get("username") or user.get("first_name", "User_" + id)`.
The `or` falls through when the username is missing or empty (falsy); the
`.get` default applies only when the first_name key itself is missing. -/
def deriveUsername (u : TgUser) : String :=
  match u.username with
  | StrField.val s =>
      if s = "" then
        match u.first_name with
        | StrField.val t => t
        | StrField.absent => "User_" ++ toString u.id
      else s
  | StrField.absent =>
      match u.first_name with
      | StrField.val t => t
      | StrField.absent => "User_" ++ toString u.id

/-- The record stored in user_votes for one kept answer (src/script.py
lines 157-161). -/
structure VoteData where
  username : String
  poll_id : String
  vote_value : Int
deriving DecidableEq

/-- Dict lookup by string key (first entry wins, as in a Python dict, whose
keys are unique). -/
def lookupKey {α : Type} (k : String) : List (String × α) → Option α
  | [] => none
  | p :: rest => if p.1 = k then some p.2 else lookupKey k rest

/-- The (vote_key, record) pair an update would store into user_votes when it
passes every relevance check of src/script.py lines 139-161 — it has a
poll_answer, the poll is active, option_ids is non-empty — and none
otherwise.  The vote value is the first selected index plus 1, the key is
the f-string username_pollid. -/
def voteOf (active : List String) (u : Update) : Option (String × VoteData) :=
  match u.poll_answer with
  | none => none
  | some pa =>
      if pa.poll_id ∈ active then
        match pa.option_ids with
        | [] => none
        | i :: _ =>
            some (deriveUsername pa.user ++ "_" ++ pa.poll_id,
                  { username := deriveUsername pa.user
                    poll_id := pa.poll_id
                    vote_value := (i : Int) + 1 })
      else none

/-- One iteration of the loop of process_updates (src/script.py lines
134-162): the running maximum absorbs this update_id unconditionally, and a
relevant answer is recorded only when its vote_key is not yet present
(`if vote_key not in user_votes`), so the first event wins. -/
def processStep (active : List String) (acc : List (String × VoteData) × Nat)
    (u : Update) : List (String × VoteData) × Nat :=
  match voteOf active u with
  | none => (acc.1, max acc.2 u.update_id)
  | some kv =>
      match lookupKey kv.1 acc.1 with
      | some _ => (acc.1, max acc.2 u.update_id)
      | none => (acc.1 ++ [kv], max acc.2 u.update_id)

/-- First component of processStep in isolation: how one update transforms
the user_votes dict.  processStep is exactly (recordVote, running max), see
processStep_eq below. -/
def recordVote (active : List String) (m : List (String × VoteData))
    (u : Update) : List (String × VoteData) :=
  match voteOf active u with
  | none => m
  | some kv =>
      match lookupKey kv.1 m with
      | some _ => m
      | none => m ++ [kv]

/-- process_updates (src/script.py lines 126-164): fold the batch left to
right starting from an empty user_votes dict and highest_update_id = 0;
returns (user_votes, highest_update_id). -/
def processUpdates (updates : List Update) (active : List String) :
    List (String × VoteData) × Nat :=
  updates.foldl (processStep active) ([], 0)

/-- Maximum update_id of a batch, as the loop accumulates it (0 for an empty
batch, matching the initialisation at line 132). -/
def batchMax (updates : List Update) : Nat :=
  updates.foldl (fun a u => max a u.update_id) 0

/-- The two lines `if username not in total_votes: total_votes[username] = 0`
and `total_votes[username] += vote_value` of aggregate_votes: update in
place when the key exists (keeping its dict position), append a fresh entry
otherwise. -/
def bump (totals : List (String × Int)) (name : String) (v : Int) :
    List (String × Int) :=
  match lookupKey name totals with
  | some _ => totals.map (fun p => if p.1 = name then (p.1, p.2 + v) else p)
  | none => totals ++ [(name, v)]

/-- aggregate_votes (src/script.py lines 166-180): start from a copy of the
existing totals and fold the recorded votes in dict order. -/
def aggregate_votes (poll_votes : List (String × VoteData))
    (existing : List (String × Int)) : List (String × Int) :=
  poll_votes.foldl (fun t p => bump t p.2.username p.2.vote_value) existing

/-- Python's date.weekday() on the day-number encoding: 0 = Monday, ...,
6 = Sunday. -/
def weekday (d : Int) : Int := d % 7

/-- get_week_start (src/script.py lines 71-75):
`monday = date - timedelta(days=(date.weekday() + 1))`, returned as the day
number of that date. -/
def get_week_start (d : Int) : Int := d - (weekday d + 1)

/-- One value of the "date" field of an active_polls entry, classified by
the two tests clean_old_polls applies to it (src/script.py lines 212-223):
Python truthiness of `poll_info.get("date")` and strptime success.
`missing` is an absent key or None (falsy); `emptyStr` the empty string
(falsy, and unparsable — strptime raises ValueError on it); `malformed` a
non-empty string strptime rejects; `valid` a well-formed YYYY-MM-DD string,
carried as its day number. -/
inductive PyDate where
  | missing
  | emptyStr
  | malformed
  | valid (day : Int)
deriving DecidableEq

/-- An active_polls entry value: {"message_id": int, "date": str}
(src/script.py line 55). -/
structure PollInfo where
  message_id : Nat
  date : PyDate
deriving DecidableEq

/-- The persisted aggregate (src/script.py lines 53-59). -/
structure BotData where
  current_week_start : Option Int
  active_polls : List (String × PollInfo)
  votes : List (String × Int)
  processed_polls : List String
  last_update_id : Nat
deriving DecidableEq

/-- True when clean_old_polls keeps the entry: a falsy date field is never
examined, hence kept; a parsed date is kept unless days_old > 7; a
non-empty unparsable date hits the ValueError handler and is removed. -/
def keepPoll (today : Int) (pd : PyDate) : Bool :=
  match pd with
  | PyDate.missing => true
  | PyDate.emptyStr => true
  | PyDate.malformed => false
  | PyDate.valid day => !(today - day > 7)

/-- clean_old_polls (src/script.py lines 206-227): collect the expired poll
ids, delete them from active_polls and discard each from processed_polls. -/
def cleanOldPolls (today : Int) (data : BotData) : BotData :=
  let removed :=
    (data.active_polls.filter (fun p => !(keepPoll today p.2.date))).map Prod.fst
  { data with
    active_polls := data.active_polls.filter (fun p => keepPoll today p.2.date)
    processed_polls := data.processed_polls.filter (fun pid => decide (pid ∉ removed)) }

/-- The week-cycle controller of run_daily_task (src/script.py lines
260-277), with the mangled guard of line 261 (`if now.weekday() == 6 and:`,
a slip — the bare condition the guarded block and its comments describe is
the Sunday test) read as `if now.weekday() == 6:`.  On Sunday the summary
is sent only when votes is non-empty (the guard at line 263); the state is
then replaced by a fresh week that carries last_update_id forward (lines
270-277).  On any other day the state passes through untouched.  Returns
the new state and the votes dict a summary was sent for, if one was. -/
def weekCycle (today : Int) (data : BotData) :
    BotData × Option (List (String × Int)) :=
  if weekday today = 6 then
    ({ current_week_start := some (get_week_start today)
       active_polls := []
       votes := []
       processed_polls := []
       last_update_id := data.last_update_id },
     if data.votes.isEmpty then none else some data.votes)
  else (data, none)

/-- External inputs of one run: today's date, the batch getUpdates returned
(empty also stands for a failed fetch, which returns []), and the poll
sendPoll created — none when the request raised and the exception was
caught (src/script.py lines 284-293). -/
structure RunEnv where
  today : Int
  updates : List Update
  newPoll : Option (String × Nat)
deriving DecidableEq

/-- The update-consumption block of run_daily_task (src/script.py lines
240-259): when the fetched batch is non-empty, process it against the
currently active poll ids, advance last_update_id to the batch maximum when
that is larger (lines 250-251), and fold the recorded votes into the weekly
totals when any were recorded (lines 255-256). -/
def applyBatch (env : RunEnv) (data : BotData) : BotData :=
  if env.updates.isEmpty then data
  else
    let pv := processUpdates env.updates (data.active_polls.map Prod.fst)
    let cursor := if pv.2 > data.last_update_id then pv.2 else data.last_update_id
    let votes := if pv.1.isEmpty then data.votes else aggregate_votes pv.1 data.votes
    { data with last_update_id := cursor, votes := votes }

/-- run_daily_task (src/script.py lines 229-300).  The committed body is not
runnable Python: line 261 is a syntax error, and line 240 reads `updates`
though its only assignment is the getUpdates call at line 281.  This model
executes the statements in the only order consistent with the data flow and
the module's own comments (fetch and consume the batch, run the week-cycle
controller, register the new poll, clean old polls, save); the two repaired
slips are recorded on `weekCycle` and here.  Returns the saved state and
the summary sent, if any. -/
def runDailyTask (env : RunEnv) (data0 : BotData) :
    BotData × Option (List (String × Int)) :=
  let d1 := applyBatch env data0
  let wc := weekCycle env.today d1
  let d3 :=
    match env.newPoll with
    | some pm =>
        { wc.1 with active_polls :=
            wc.1.active_polls ++
              [(pm.1, { message_id := pm.2, date := PyDate.valid env.today })] }
    | none => wc.1
  (cleanOldPolls env.today d3, wc.2)

/-- The record the first relevant event of the batch would store under the
given vote_key; used to state the first-event-wins deduplication property
of process_updates. -/
def firstRecordedVote (active : List String) (us : List Update) (k : String) :
    Option VoteData :=
  match us with
  | [] => none
  | u :: rest =>
      match voteOf active u with
      | some kv =>
          if kv.1 = k then some kv.2 else firstRecordedVote active rest k
      | none => firstRecordedVote active rest k

/-! ## Basic lemmas about the batch fold -/

theorem lookupKey_append {α : Type} (k : String) (l1 l2 : List (String × α)) :
    lookupKey k (l1 ++ l2) =
      match lookupKey k l1 with
      | some v => some v
      | none => lookupKey k l2 := by
  induction l1 with
  | nil => rfl
  | cons p rest ih =>
      by_cases h : p.1 = k <;> simp [lookupKey, h, ih]

theorem processStep_eq (active : List String) (m : List (String × VoteData))
    (a : Nat) (u : Update) :
    processStep active (m, a) u = (recordVote active m u, max a u.update_id) := by
  rcases h : voteOf active u with _ | kv
  · simp [processStep, recordVote, h]
  · rcases h2 : lookupKey kv.1 m with _ | w <;>
      simp [processStep, recordVote, h, h2]

theorem foldl_processStep (active : List String) (us : List Update)
    (m : List (String × VoteData)) (a : Nat) :
    us.foldl (processStep active) (m, a)
      = (us.foldl (recordVote active) m,
         us.foldl (fun x u => max x u.update_id) a) := by
  induction us generalizing m a with
  | nil => rfl
  | cons u rest ih =>
      simp only [List.foldl_cons, processStep_eq]
      exact ih (recordVote active m u) (max a u.update_id)

theorem processUpdates_eq (us : List Update) (active : List String) :
    processUpdates us active = (us.foldl (recordVote active) [], batchMax us) := by
  unfold processUpdates batchMax
  exact foldl_processStep active us [] 0

theorem le_foldl_max (us : List Update) (a : Nat) :
    a ≤ us.foldl (fun x u => max x u.update_id) a := by
  induction us generalizing a with
  | nil => exact Nat.le_refl a
  | cons u rest ih =>
      exact Nat.le_trans (Nat.le_max_left a u.update_id) (ih _)

theorem mem_le_foldl_max (us : List Update) (u : Update) (h : u ∈ us) :
    ∀ a : Nat, u.update_id ≤ us.foldl (fun x v => max x v.update_id) a := by
  induction h with
  | head rest =>
      intro a
      exact Nat.le_trans (Nat.le_max_right a u.update_id) (le_foldl_max rest _)
  | tail v hmem ih =>
      intro a
      exact ih _

theorem recordVote_none (active : List String) (m : List (String × VoteData))
    (u : Update) (h : voteOf active u = none) : recordVote active m u = m := by
  simp [recordVote, h]

theorem recordVote_dup (active : List String) (m : List (String × VoteData))
    (u : Update) (kv : String × VoteData) (w : VoteData)
    (h : voteOf active u = some kv) (h2 : lookupKey kv.1 m = some w) :
    recordVote active m u = m := by
  simp [recordVote, h, h2]

theorem recordVote_new (active : List String) (m : List (String × VoteData))
    (u : Update) (kv : String × VoteData)
    (h : voteOf active u = some kv) (h2 : lookupKey kv.1 m = none) :
    recordVote active m u = m ++ [kv] := by
  simp [recordVote, h, h2]

theorem lookup_some_foldl_recordVote (active : List String) (us : List Update)
    (m : List (String × VoteData)) (k : String) (v : VoteData)
    (h : lookupKey k m = some v) :
    lookupKey k (us.foldl (recordVote active) m) = some v := by
  induction us generalizing m with
  | nil => exact h
  | cons u rest ih =>
      simp only [List.foldl_cons]
      apply ih
      rcases hv : voteOf active u with _ | kv
      · rw [recordVote_none active m u hv]; exact h
      · rcases h2 : lookupKey kv.1 m with _ | w
        · rw [recordVote_new active m u kv hv h2, lookupKey_append, h]
        · rw [recordVote_dup active m u kv w hv h2]; exact h

theorem lookup_none_foldl_recordVote (active : List String) (us : List Update)
    (m : List (String × VoteData)) (k : String)
    (h : lookupKey k m = none) :
    lookupKey k (us.foldl (recordVote active) m) = firstRecordedVote active us k := by
  induction us generalizing m with
  | nil => exact h
  | cons u rest ih =>
      simp only [List.foldl_cons]
      rcases hv : voteOf active u with _ | kv
      · rw [recordVote_none active m u hv, ih m h]
        simp [firstRecordedVote, hv]
      · by_cases hk : kv.1 = k
        · subst hk
          rcases h2 : lookupKey kv.1 m with _ | w
          · rw [recordVote_new active m u kv hv h2]
            rw [lookup_some_foldl_recordVote active rest _ _ kv.2
                (by rw [lookupKey_append, h]; simp [lookupKey])]
            simp [firstRecordedVote, hv]
          · rw [h] at h2
            cases h2
        · rcases h2 : lookupKey kv.1 m with _ | w
          · rw [recordVote_new active m u kv hv h2]
            rw [ih (m ++ [kv]) (by rw [lookupKey_append, h]; simp [lookupKey, hk])]
            simp [firstRecordedVote, hv, hk]
          · rw [recordVote_dup active m u kv w hv h2, ih m h]
            simp [firstRecordedVote, hv, hk]

theorem voteOf_value_ge_one (active : List String) (u : Update)
    (kv : String × VoteData) (h : voteOf active u = some kv) :
    1 ≤ kv.2.vote_value := by
  rcases hu : u.poll_answer with _ | pa
  · simp [voteOf, hu] at h
  · by_cases hin : pa.poll_id ∈ active
    · rcases ho : pa.option_ids with _ | ⟨i, rest⟩
      · simp [voteOf, hu, hin, ho] at h
      · simp only [voteOf, hu, hin, ho, if_true, reduceCtorEq] at h
        rw [Option.some_inj] at h
        subst h
        simp only
        omega
    · simp [voteOf, hu, hin] at h

theorem mem_foldl_recordVote (active : List String) (us : List Update)
    (m : List (String × VoteData)) (p : String × VoteData)
    (h : p ∈ us.foldl (recordVote active) m) :
    p ∈ m ∨ ∃ u ∈ us, voteOf active u = some p := by
  induction us generalizing m with
  | nil => exact Or.inl h
  | cons u rest ih =>
      rcases ih _ h with hm | ⟨v, hv, hvo⟩
      · rcases hvo2 : voteOf active u with _ | kv
        · rw [recordVote_none active m u hvo2] at hm; exact Or.inl hm
        · rcases h2 : lookupKey kv.1 m with _ | w
          · rw [recordVote_new active m u kv hvo2 h2] at hm
            rcases List.mem_append.mp hm with h3 | h3
            · exact Or.inl h3
            · refine Or.inr ⟨u, List.mem_cons_self u rest, ?_⟩
              rw [hvo2, List.mem_singleton.mp h3]
          · rw [recordVote_dup active m u kv w hvo2 h2] at hm; exact Or.inl hm
      · exact Or.inr ⟨v, List.mem_cons_of_mem u hv, hvo⟩

theorem processUpdates_value_ge_one (us : List Update) (active : List String)
    (p : String × VoteData) (h : p ∈ (processUpdates us active).1) :
    1 ≤ p.2.vote_value := by
  rw [processUpdates_eq] at h
  rcases mem_foldl_recordVote active us [] p h with hm | ⟨u, _, hvo⟩
  · cases hm
  · exact voteOf_value_ge_one active u p hvo

/-! ## Claim theorems: the batch scanner -/

/-- C6: within one batch, when several events concern the same respondent and
poll (hence produce the same vote_key), only the first one encountered in
batch order is recorded: the user_votes entry under every key equals the
payload of the first relevant event generating that key, so later events
for the pair contribute nothing to the stored value, and therefore nothing
to the aggregated score, which is computed from user_votes alone. -/
theorem first_vote_wins (us : List Update) (active : List String) (k : String) :
    lookupKey k (processUpdates us active).1 = firstRecordedVote active us k := by
  rw [processUpdates_eq]
  exact lookup_none_foldl_recordVote active us [] k rfl

/-- C7: an event lacking a poll-answer payload, referencing an inactive poll,
or carrying an empty option list (exactly the cases voteOf is none) leaves
the recorded-votes dict unchanged wherever it sits in the batch, yet its
sequence number still bounds the returned maximum; and the returned highest
sequence number is the running maximum of update_id over the entire batch
(seeded with 0 as line 132 does). -/
theorem irrelevant_event_advances_cursor (active : List String)
    (us1 us2 : List Update) (u : Update) (h : voteOf active u = none) :
    (processUpdates (us1 ++ u :: us2) active).1
        = (processUpdates (us1 ++ us2) active).1
    ∧ u.update_id ≤ (processUpdates (us1 ++ u :: us2) active).2
    ∧ (∀ vs : List Update, (processUpdates vs active).2 = batchMax vs)
    ∧ (∀ vs : List Update, ∀ v ∈ vs, v.update_id ≤ (processUpdates vs active).2) := by
  have hrec : ∀ m, recordVote active m u = m := by
    intro m; unfold recordVote; rw [h]
  refine ⟨?_, ?_, ?_, ?_⟩
  · rw [processUpdates_eq, processUpdates_eq]
    simp only [List.foldl_append, List.foldl_cons, hrec]
  · rw [processUpdates_eq]
    exact mem_le_foldl_max _ u
      (List.mem_append_right us1 (List.mem_cons_self u us2)) 0
  · intro vs
    rw [processUpdates_eq]
  · intro vs v hv
    rw [processUpdates_eq]
    exact mem_le_foldl_max vs v hv 0

/-- Witness for C7 at a concrete batch: a payload-free event with sequence
number 5 inserted into a batch records nothing but is absorbed into the
returned maximum. -/
theorem irrelevant_event_advances_cursor_w :
    (processUpdates
        ([] ++ { update_id := 5, poll_answer := none } ::
          [{ update_id := 3,
             poll_answer := some
               { poll_id := "p"
                 user := { id := 7, username := StrField.val ("bob"),
                           first_name := StrField.absent }
                 option_ids := [2] } }]) [("p")]).1
      = (processUpdates
          ([] ++
            [{ update_id := 3,
               poll_answer := some
                 { poll_id := "p"
                   user := { id := 7, username := StrField.val ("bob"),
                             first_name := StrField.absent }
                   option_ids := [2] } }]) [("p")]).1
    ∧ (5 : Nat) ≤ (processUpdates
        ([] ++ { update_id := 5, poll_answer := none } ::
          [{ update_id := 3,
             poll_answer := some
               { poll_id := "p"
                 user := { id := 7, username := StrField.val ("bob"),
                           first_name := StrField.absent }
                 option_ids := [2] } }]) [("p")]).2
    ∧ (processUpdates
        [{ update_id := 5, poll_answer := none }] [("p")]).2
      = batchMax [{ update_id := 5, poll_answer := none }]
    ∧ (5 : Nat) ≤ (processUpdates
        [{ update_id := 5, poll_answer := none }] [("p")]).2 := by
  have H := irrelevant_event_advances_cursor [("p")] []
    [{ update_id := 3,
       poll_answer := some
         { poll_id := "p"
           user := { id := 7, username := StrField.val ("bob"),
                     first_name := StrField.absent }
           option_ids := [2] } }]
    { update_id := 5, poll_answer := none } rfl
  exact ⟨H.1, H.2.1, H.2.2.1 [{ update_id := 5, poll_answer := none }],
         H.2.2.2 [{ update_id := 5, poll_answer := none }]
           { update_id := 5, poll_answer := none } (List.mem_singleton.mpr rfl)⟩

/-! ## Claim theorems: the week-start computation -/

/-- C4 (code_bug record): get_week_start never returns a Monday.  Because of
the `+ 1` at line 74 it always lands on the Sunday before the date's week:
its result always has weekday 6, and a date that is itself a Monday is
mapped to the day before it, not to itself, contradicting the function's
own docstring ("Get the Monday of the week for a given date") and the
spec. -/
theorem get_week_start_never_monday (d : Int) :
    weekday (get_week_start d) = 6 ∧ (weekday d = 0 → get_week_start d = d - 1) := by
  unfold get_week_start weekday
  constructor
  · omega
  · intro h
    omega

/-- Witness for C4 at day number 738955, which is 2024-03-11, a Monday
(weekday 0): the code returns the preceding day 738954 (2024-03-10, a
Sunday). -/
theorem get_week_start_never_monday_w :
    weekday (get_week_start 738955) = 6 ∧ get_week_start 738955 = 738954 := by
  have H := get_week_start_never_monday 738955
  refine ⟨H.1, ?_⟩
  rw [H.2 (by decide)]
  norm_num

/-! ## Lemmas about score aggregation -/

theorem aggregate_votes_cons (q : String × VoteData) (pv : List (String × VoteData))
    (existing : List (String × Int)) :
    aggregate_votes (q :: pv) existing
      = aggregate_votes pv (bump existing q.2.username q.2.vote_value) := rfl

theorem lookupKey_map_bump (totals : List (String × Int)) (name k : String) (v : Int) :
    lookupKey k (totals.map (fun p => if p.1 = name then (p.1, p.2 + v) else p))
      = Option.map (fun w => if k = name then w + v else w) (lookupKey k totals) := by
  induction totals with
  | nil => rfl
  | cons q rest ih =>
      simp only [List.map_cons]
      by_cases hn : q.1 = name
      · by_cases hq : q.1 = k
        · have hkn : k = name := by rw [← hq, hn]
          simp [lookupKey, hn, hq, hkn]
        · have hnk : ¬name = k := fun hc => hq (hn.trans hc)
          simp [lookupKey, hn, hq, hnk, ih]
      · by_cases hq : q.1 = k
        · have hkn : ¬k = name := fun hc => hn (hq.trans hc)
          simp [lookupKey, hn, hq, hkn]
        · simp [lookupKey, hn, hq, ih]

theorem bump_lookup (totals : List (String × Int)) (name : String) (v : Int)
    (k : String) :
    lookupKey k (bump totals name v)
      = match lookupKey k totals with
        | some w => some (if k = name then w + v else w)
        | none => if k = name then some v else none := by
  rcases h : lookupKey name totals with _ | w0 <;> simp only [bump, h]
  · rw [lookupKey_append]
    rcases hk : lookupKey k totals with _ | w <;> simp only [hk]
    · by_cases hkn : name = k
      · subst hkn
        simp [lookupKey]
      · have hkn2 : ¬k = name := fun hc => hkn hc.symm
        simp [lookupKey, hkn, hkn2]
    · by_cases hkn : k = name
      · exfalso
        rw [hkn, h] at hk
        cases hk
      · simp [hkn]
  · rw [lookupKey_map_bump]
    rcases hk : lookupKey k totals with _ | w <;> simp only [hk, Option.map]
    by_cases hkn : k = name
    · exfalso
      rw [hkn, h] at hk
      cases hk
    · simp [hkn]

theorem bump_mem_nonneg (totals : List (String × Int)) (name : String) (v : Int)
    (h0 : ∀ p ∈ totals, 0 ≤ p.2) (hv : 0 ≤ v) :
    ∀ p ∈ bump totals name v, 0 ≤ p.2 := by
  intro p hp
  rcases h : lookupKey name totals with _ | w0 <;> simp only [bump, h] at hp
  · rcases List.mem_append.mp hp with h3 | h3
    · exact h0 p h3
    · rw [List.mem_singleton.mp h3]
      exact hv
  · rcases List.mem_map.mp hp with ⟨q, hq, hfq⟩
    by_cases hn : q.1 = name
    · rw [← hfq, if_pos hn]
      have h1 := h0 q hq
      show 0 ≤ q.2 + v
      omega
    · rw [← hfq, if_neg hn]
      exact h0 q hq

theorem aggregate_lookup_mono (pv : List (String × VoteData)) :
    ∀ existing : List (String × Int), (∀ p ∈ pv, 0 ≤ p.2.vote_value) →
    ∀ k w, lookupKey k existing = some w →
    ∃ w', lookupKey k (aggregate_votes pv existing) = some w' ∧ w ≤ w' := by
  induction pv with
  | nil =>
      intro existing _ k w h
      exact ⟨w, h, le_refl w⟩
  | cons q rest ih =>
      intro existing hall k w h
      have hv : 0 ≤ q.2.vote_value := hall q (List.mem_cons_self q rest)
      have hb2 : lookupKey k (bump existing q.2.username q.2.vote_value)
          = some (if k = q.2.username then w + q.2.vote_value else w) := by
        rw [bump_lookup, h]
      obtain ⟨w', hw', hle⟩ := ih (bump existing q.2.username q.2.vote_value)
        (fun p hp => hall p (List.mem_cons_of_mem q hp)) k _ hb2
      rw [aggregate_votes_cons]
      refine ⟨w', hw', le_trans ?_ hle⟩
      by_cases hk : k = q.2.username
      · rw [if_pos hk]
        omega
      · rw [if_neg hk]

theorem aggregate_mem_nonneg (pv : List (String × VoteData)) :
    ∀ existing : List (String × Int), (∀ p ∈ pv, 0 ≤ p.2.vote_value) →
    (∀ p ∈ existing, 0 ≤ p.2) → ∀ p ∈ aggregate_votes pv existing, 0 ≤ p.2 := by
  induction pv with
  | nil =>
      intro existing _ h0
      exact h0
  | cons q rest ih =>
      intro existing hall h0
      rw [aggregate_votes_cons]
      exact ih _ (fun p hp => hall p (List.mem_cons_of_mem q hp))
        (bump_mem_nonneg existing q.2.username q.2.vote_value h0
          (hall q (List.mem_cons_self q rest)))

/-! ## Claim theorems: aggregation is monotone -/

/-- C10: every vote record the batch scanner produces carries a value of at
least 1 (first selected index plus 1), and folding those records into any
starting scores keeps every existing key with a total at least its prior
value; when the starting values are all non-negative, so are all the
resulting totals. -/
theorem aggregation_monotone (us : List Update) (active : List String)
    (existing : List (String × Int)) :
    (∀ p ∈ (processUpdates us active).1, 1 ≤ p.2.vote_value)
    ∧ (∀ k w, lookupKey k existing = some w →
        ∃ w', lookupKey k (aggregate_votes (processUpdates us active).1 existing)
                = some w' ∧ w ≤ w')
    ∧ ((∀ p ∈ existing, 0 ≤ p.2) →
        ∀ p ∈ aggregate_votes (processUpdates us active).1 existing, 0 ≤ p.2) := by
  have hall : ∀ p ∈ (processUpdates us active).1, 0 ≤ p.2.vote_value :=
    fun p hp => le_trans (by norm_num) (processUpdates_value_ge_one us active p hp)
  exact ⟨fun p hp => processUpdates_value_ge_one us active p hp,
         fun k w h => aggregate_lookup_mono _ _ hall k w h,
         fun h0 => aggregate_mem_nonneg _ _ hall h0⟩

/-- Witness for C10: alice's existing total 5 survives a batch containing
bob's vote, with a resulting total at least 5. -/
theorem aggregation_monotone_w :
    ∃ w', lookupKey ("alice")
        (aggregate_votes
          (processUpdates
            [{ update_id := 9
               poll_answer := some
                 { poll_id := "p"
                   user := { id := 7, username := StrField.val ("bob"),
                             first_name := StrField.absent }
                   option_ids := [2] } }] [("p")]).1
          [("alice", 5)]) = some w' ∧ (5 : Int) ≤ w' := by
  exact (aggregation_monotone
    [{ update_id := 9
       poll_answer := some
         { poll_id := "p"
           user := { id := 7, username := StrField.val ("bob"),
                     first_name := StrField.absent }
           option_ids := [2] } }] [("p")] [("alice", 5)]).2.1
    ("alice") 5 (by simp [lookupKey])

/-! ## Claim theorems: respondent identity -/

/-- C9 counterexample: the claim says a respondent without a username is
keyed from the numeric user id alone, but the code prefers the first_name
field (line 147 falls back to `user.get("first_name", ...)` before the
synthesised User_id key): with username absent, first_name "Alice" and id
7, the recorded key is "Alice_p" and not "User_7_p". -/
theorem fallback_key_uses_first_name :
    (processUpdates
      [{ update_id := 1
         poll_answer := some
           { poll_id := "p"
             user := { id := 7, username := StrField.absent,
                       first_name := StrField.val ("Alice") }
             option_ids := [0] } }] [("p")]).1
      = [("Alice_p", { username := ("Alice"), poll_id := ("p"), vote_value := 1 })]
    ∧ lookupKey ("User_7_p")
        (processUpdates
          [{ update_id := 1
             poll_answer := some
               { poll_id := "p"
                 user := { id := 7, username := StrField.absent,
                           first_name := StrField.val ("Alice") }
                 option_ids := [0] } }] [("p")]).1 = none := by
  constructor <;> rfl

/-- C9 amended: the respondent key is the username when it is present and
non-empty; when the username is absent or empty, the key is the first_name
field whenever that key is present; only when first_name is also missing is
the key synthesised from the numeric id as User_ followed by the id.  (The
derivation is a pure function of the user object, so a given user object
always yields the same key across batches and runs.) -/
theorem respondent_key_cases (u : TgUser) :
    (∀ s, u.username = StrField.val s → s ≠ "" → deriveUsername u = s)
    ∧ ((u.username = StrField.absent ∨ u.username = StrField.val "") →
        (∀ s, u.first_name = StrField.val s → deriveUsername u = s)
        ∧ (u.first_name = StrField.absent →
            deriveUsername u = "User_" ++ toString u.id)) := by
  constructor
  · intro s hs hne
    simp [deriveUsername, hs, hne]
  · intro hu
    constructor
    · intro s hs
      rcases hu with hu | hu <;> simp [deriveUsername, hu, hs]
    · intro hf
      rcases hu with hu | hu <;> simp [deriveUsername, hu, hf]

/-- Witness for C9 amended, at the two fallback shapes: first_name present,
and both identity fields missing. -/
theorem respondent_key_cases_w :
    deriveUsername { id := 7, username := StrField.absent,
                     first_name := StrField.val ("Alice") } = ("Alice")
    ∧ deriveUsername { id := 7, username := StrField.absent,
                       first_name := StrField.absent }
        = "User_" ++ toString (7 : Int) := by
  constructor
  · exact ((respondent_key_cases _).2 (Or.inl rfl)).1 ("Alice") rfl
  · exact ((respondent_key_cases _).2 (Or.inl rfl)).2 rfl

/-! ## Claim theorems: poll expiry -/

/-- C5 counterexample: the claim says every entry with an unparsable creation
date is removed, but an entry whose date field is the empty string — which
strptime("", "%Y-%m-%d") rejects with ValueError, hence unparsable — is
falsy, so the check `if poll_date_str:` at line 213 skips it and the entry
is retained forever, for every current date (here day number 100). -/
theorem empty_date_poll_retained :
    cleanOldPolls 100
      { current_week_start := none
        active_polls := [("p", { message_id := 1, date := PyDate.emptyStr })]
        votes := []
        processed_polls := ["p"]
        last_update_id := 0 }
      = { current_week_start := none
          active_polls := [("p", { message_id := 1, date := PyDate.emptyStr })]
          votes := []
          processed_polls := ["p"]
          last_update_id := 0 } := rfl

/-- C5 amended: after expiry at the current date, an entry with a parsed
creation date stays exactly when it is at most 7 days old (exactly 7 days
is retained, 8 is removed); an entry with a present, non-empty, unparsable
date is removed; an entry whose date field is missing or the empty string
is retained; and an id remains in processed_polls exactly when it was there
before and no active-polls entry carrying it was removed. -/
theorem expire_characterization (today : Int) (data : BotData) :
    (∀ e ∈ data.active_polls,
       (e ∈ (cleanOldPolls today data).active_polls ↔
         (match e.2.date with
          | PyDate.valid day => today - day ≤ 7
          | PyDate.malformed => False
          | PyDate.missing => True
          | PyDate.emptyStr => True)))
    ∧ (∀ pid, pid ∈ (cleanOldPolls today data).processed_polls ↔
        (pid ∈ data.processed_polls ∧
          ∀ e ∈ data.active_polls, e.1 = pid → keepPoll today e.2.date = true)) := by
  constructor
  · intro e he
    have hiff : e ∈ (cleanOldPolls today data).active_polls
        ↔ keepPoll today e.2.date = true := by
      simp [cleanOldPolls, List.mem_filter, he]
    rw [hiff]
    rcases hd : e.2.date with _ | _ | _ | day <;> simp [keepPoll]
  · intro pid
    simp only [cleanOldPolls, List.mem_filter, decide_eq_true_eq]
    constructor
    · rintro ⟨hmem, hnr⟩
      refine ⟨hmem, ?_⟩
      intro e he hpid
      by_contra hkeep
      exact hnr (List.mem_map.mpr
        ⟨e, List.mem_filter.mpr ⟨he, by simp [hkeep]⟩, hpid⟩)
    · rintro ⟨hmem, hall⟩
      refine ⟨hmem, ?_⟩
      intro hr
      rcases List.mem_map.mp hr with ⟨e, hef, hpid⟩
      rcases List.mem_filter.mp hef with ⟨he, hnk⟩
      have := hall e he hpid
      simp [this] at hnk

/-- Witness for C5 amended at the spec's own example (today = 2024-03-15,
day number 738959): a poll dated 2024-03-08 (738952, exactly 7 days old) is
retained, a poll dated 2024-03-07 (738951, 8 days old) is removed and its
id is also dropped from processed_polls. -/
theorem expire_characterization_w :
    (("keep8", { message_id := 1, date := PyDate.valid 738952 }) ∈
        (cleanOldPolls 738959
          { current_week_start := none
            active_polls :=
              [("keep8", { message_id := 1, date := PyDate.valid 738952 }),
               ("drop7", { message_id := 2, date := PyDate.valid 738951 })]
            votes := []
            processed_polls := ["keep8", "drop7"]
            last_update_id := 0 }).active_polls)
    ∧ ("drop7", { message_id := 2, date := PyDate.valid 738951 }) ∉
        (cleanOldPolls 738959
          { current_week_start := none
            active_polls :=
              [("keep8", { message_id := 1, date := PyDate.valid 738952 }),
               ("drop7", { message_id := 2, date := PyDate.valid 738951 })]
            votes := []
            processed_polls := ["keep8", "drop7"]
            last_update_id := 0 }).active_polls
    ∧ "drop7" ∉
        (cleanOldPolls 738959
          { current_week_start := none
            active_polls :=
              [("keep8", { message_id := 1, date := PyDate.valid 738952 }),
               ("drop7", { message_id := 2, date := PyDate.valid 738951 })]
            votes := []
            processed_polls := ["keep8", "drop7"]
            last_update_id := 0 }).processed_polls := by
  have H := expire_characterization 738959
    { current_week_start := none
      active_polls :=
        [("keep8", { message_id := 1, date := PyDate.valid 738952 }),
         ("drop7", { message_id := 2, date := PyDate.valid 738951 })]
      votes := []
      processed_polls := ["keep8", "drop7"]
      last_update_id := 0 }
  refine ⟨?_, ?_, ?_⟩
  · exact (H.1 _ (by simp)).mpr (by norm_num)
  · intro hmem
    have h2 := (H.1 _ (by simp)).mp hmem
    norm_num at h2
  · intro hmem
    have h2 := (H.2 ("drop7")).mp hmem
    have h3 := h2.2 ("drop7", { message_id := 2, date := PyDate.valid 738951 })
      (by simp) rfl
    simp [keepPoll] at h3

/-! ## Lemmas about the orchestrated run -/

theorem keepPoll_today (today : Int) : keepPoll today (PyDate.valid today) = true := by
  have h : ¬(today - today > 7) := by omega
  simp [keepPoll, h]

theorem weekCycle_cursor (today : Int) (d : BotData) :
    (weekCycle today d).1.last_update_id = d.last_update_id := by
  unfold weekCycle
  split <;> rfl

theorem runDailyTask_none (env : RunEnv) (d0 : BotData) (h : env.newPoll = none) :
    runDailyTask env d0
      = (cleanOldPolls env.today (weekCycle env.today (applyBatch env d0)).1,
         (weekCycle env.today (applyBatch env d0)).2) := by
  unfold runDailyTask
  rw [h]

theorem runDailyTask_some (env : RunEnv) (d0 : BotData) (pm : String × Nat)
    (h : env.newPoll = some pm) :
    runDailyTask env d0
      = (cleanOldPolls env.today
          { (weekCycle env.today (applyBatch env d0)).1 with
            active_polls :=
              (weekCycle env.today (applyBatch env d0)).1.active_polls ++
                [(pm.1, { message_id := pm.2, date := PyDate.valid env.today })] },
         (weekCycle env.today (applyBatch env d0)).2) := by
  unfold runDailyTask
  rw [h]

theorem runDailyTask_cursor (env : RunEnv) (d0 : BotData) :
    (runDailyTask env d0).1.last_update_id = (applyBatch env d0).last_update_id := by
  rcases hp : env.newPoll with _ | pm
  · rw [runDailyTask_none env d0 hp]
    exact weekCycle_cursor env.today (applyBatch env d0)
  · rw [runDailyTask_some env d0 pm hp]
    exact weekCycle_cursor env.today (applyBatch env d0)

theorem applyBatch_cursor (env : RunEnv) (d0 : BotData) :
    (applyBatch env d0).last_update_id
      = (if env.updates.isEmpty then d0.last_update_id
         else max d0.last_update_id
           (processUpdates env.updates (d0.active_polls.map Prod.fst)).2) := by
  unfold applyBatch
  split
  · rfl
  · show (if (processUpdates env.updates (d0.active_polls.map Prod.fst)).2
              > d0.last_update_id
          then (processUpdates env.updates (d0.active_polls.map Prod.fst)).2
          else d0.last_update_id)
        = max d0.last_update_id (processUpdates env.updates (d0.active_polls.map Prod.fst)).2
    rw [Nat.max_def]
    split <;> split <;> omega

/-! ## Claim theorems: the cursor across a run -/

/-- C1: the cursor saved at the end of a run is at least the cursor loaded
at its start (the week reset carries it forward, poll registration and
expiry do not touch it), and when the fetched batch is non-empty the saved
cursor is exactly the maximum of its prior value and the highest sequence
number of the batch, as lines 250-251 compute it. -/
theorem run_cursor_monotone (env : RunEnv) (d0 : BotData) :
    d0.last_update_id ≤ (runDailyTask env d0).1.last_update_id
    ∧ (env.updates ≠ [] →
        (runDailyTask env d0).1.last_update_id
          = max d0.last_update_id
              (processUpdates env.updates (d0.active_polls.map Prod.fst)).2) := by
  have h := runDailyTask_cursor env d0
  have h2 := applyBatch_cursor env d0
  constructor
  · rw [h, h2]
    split
    · exact Nat.le_refl _
    · exact Nat.le_max_left _ _
  · intro hne
    rw [h, h2]
    rcases hu : env.updates with _ | ⟨a, rest⟩
    · exact absurd hu hne
    · simp

/-- Witness for C1: a run whose batch holds one event with sequence number 3
against a loaded cursor of 10 saves exactly max 10 3. -/
theorem run_cursor_monotone_w :
    10 ≤ (runDailyTask
        { today := 3
          updates := [{ update_id := 3, poll_answer := none }]
          newPoll := none }
        { current_week_start := none
          active_polls := []
          votes := []
          processed_polls := []
          last_update_id := 10 }).1.last_update_id
    ∧ (runDailyTask
        { today := 3
          updates := [{ update_id := 3, poll_answer := none }]
          newPoll := none }
        { current_week_start := none
          active_polls := []
          votes := []
          processed_polls := []
          last_update_id := 10 }).1.last_update_id
      = max 10 (processUpdates [{ update_id := 3, poll_answer := none }] []).2 := by
  have H := run_cursor_monotone
    { today := 3
      updates := [{ update_id := 3, poll_answer := none }]
      newPoll := none }
    { current_week_start := none
      active_polls := []
      votes := []
      processed_polls := []
      last_update_id := 10 }
  exact ⟨H.1, H.2 (List.cons_ne_nil _ _)⟩

/-! ## Claim theorems: the week boundary -/

/-- C2: on a Sunday run the week reset leaves the end-of-run state with empty
scores and processed_polls, week_start set to the new period's
get_week_start value, the cursor exactly as the batch-consumption step left
it (the reset carries it forward unchanged), and active_polls holding
nothing but the poll created afterwards for the day (nothing at all when
poll creation failed); on any other day the week controller passes the
state through untouched, leaving week_start, scores and processed_polls
exactly as they were. -/
theorem sunday_reset_frame (env : RunEnv) (d0 : BotData) :
    (weekday env.today = 6 →
       (runDailyTask env d0).1.votes = []
       ∧ (runDailyTask env d0).1.processed_polls = []
       ∧ (runDailyTask env d0).1.current_week_start
           = some (get_week_start env.today)
       ∧ (runDailyTask env d0).1.last_update_id
           = (applyBatch env d0).last_update_id
       ∧ (runDailyTask env d0).1.active_polls
           = (match env.newPoll with
              | some pm =>
                  [(pm.1, { message_id := pm.2, date := PyDate.valid env.today })]
              | none => []))
    ∧ (weekday env.today ≠ 6 →
        weekCycle env.today (applyBatch env d0) = (applyBatch env d0, none)) := by
  constructor
  · intro h6
    have hwc : (weekCycle env.today (applyBatch env d0)).1
        = { current_week_start := some (get_week_start env.today)
            active_polls := []
            votes := []
            processed_polls := []
            last_update_id := (applyBatch env d0).last_update_id } := by
      unfold weekCycle
      rw [if_pos h6]
    rcases hp : env.newPoll with _ | pm
    · rw [runDailyTask_none env d0 hp, hwc]
      exact ⟨rfl, rfl, rfl, rfl, rfl⟩
    · rw [runDailyTask_some env d0 pm hp, hwc]
      refine ⟨rfl, rfl, rfl, rfl, ?_⟩
      show List.filter (fun p : String × PollInfo => keepPoll env.today p.2.date)
            ([] ++ [(pm.1, ({ message_id := pm.2,
                              date := PyDate.valid env.today } : PollInfo))])
          = [(pm.1, ({ message_id := pm.2,
                       date := PyDate.valid env.today } : PollInfo))]
      simp [keepPoll_today]
  · intro h6
    unfold weekCycle
    rw [if_neg h6]

/-- Witness for C2 at the spec's example: Sunday (day number 6), loaded state
with cursor 42 and alice at 5, no new events and a failed poll creation:
the saved state has empty scores, empty active_polls and cursor 42. -/
theorem sunday_reset_frame_w :
    (runDailyTask
        { today := 6, updates := [], newPoll := none }
        { current_week_start := some (-1)
          active_polls := [("q", { message_id := 3, date := PyDate.valid 0 })]
          votes := [("alice", 5)]
          processed_polls := ["q"]
          last_update_id := 42 }).1.votes = []
    ∧ (runDailyTask
        { today := 6, updates := [], newPoll := none }
        { current_week_start := some (-1)
          active_polls := [("q", { message_id := 3, date := PyDate.valid 0 })]
          votes := [("alice", 5)]
          processed_polls := ["q"]
          last_update_id := 42 }).1.active_polls = []
    ∧ (runDailyTask
        { today := 6, updates := [], newPoll := none }
        { current_week_start := some (-1)
          active_polls := [("q", { message_id := 3, date := PyDate.valid 0 })]
          votes := [("alice", 5)]
          processed_polls := ["q"]
          last_update_id := 42 }).1.last_update_id = 42 := by
  have H := (sunday_reset_frame
    { today := 6, updates := [], newPoll := none }
    { current_week_start := some (-1)
      active_polls := [("q", { message_id := 3, date := PyDate.valid 0 })]
      votes := [("alice", 5)]
      processed_polls := ["q"]
      last_update_id := 42 }).1 (by decide)
  exact ⟨H.1, H.2.2.2.2, H.2.2.2.1⟩

/-- C8: the week controller sends a summary exactly when the run's weekday is
Sunday and the accumulated scores are non-empty; on a Sunday with empty
scores no summary is produced, yet the reset is still performed: the
controller leaves active_polls, votes and processed_polls empty while the
cursor is carried over unchanged. -/
theorem summary_iff_sunday_nonempty (today : Int) (d : BotData) :
    ((weekCycle today d).2 ≠ none ↔ (weekday today = 6 ∧ d.votes ≠ []))
    ∧ (weekday today = 6 → d.votes = [] →
        (weekCycle today d).2 = none
        ∧ (weekCycle today d).1.active_polls = []
        ∧ (weekCycle today d).1.votes = []
        ∧ (weekCycle today d).1.processed_polls = []
        ∧ (weekCycle today d).1.last_update_id = d.last_update_id) := by
  constructor
  · by_cases h6 : weekday today = 6
    · rcases hv : d.votes with _ | ⟨q, rest⟩ <;> simp [weekCycle, h6, hv]
    · simp [weekCycle, h6]
  · intro h6 hv
    simp [weekCycle, h6, hv]

/-- Witness for C8: Sunday (day number 6) with empty scores — no summary,
active_polls cleared, cursor 42 kept. -/
theorem summary_iff_sunday_nonempty_w :
    (weekCycle 6
        { current_week_start := some (-1)
          active_polls := [("p", { message_id := 1, date := PyDate.valid 0 })]
          votes := []
          processed_polls := ["p"]
          last_update_id := 42 }).2 = none
    ∧ (weekCycle 6
        { current_week_start := some (-1)
          active_polls := [("p", { message_id := 1, date := PyDate.valid 0 })]
          votes := []
          processed_polls := ["p"]
          last_update_id := 42 }).1.active_polls = []
    ∧ (weekCycle 6
        { current_week_start := some (-1)
          active_polls := [("p", { message_id := 1, date := PyDate.valid 0 })]
          votes := []
          processed_polls := ["p"]
          last_update_id := 42 }).1.last_update_id = 42 := by
  have H := (summary_iff_sunday_nonempty 6
    { current_week_start := some (-1)
      active_polls := [("p", { message_id := 1, date := PyDate.valid 0 })]
      votes := []
      processed_polls := ["p"]
      last_update_id := 42 }).2 (by decide) rfl
  exact ⟨H.1, H.2.1, H.2.2.2.2⟩

end PollBot
